import Mathlib

/-!
# Verification of the cozmini event-loop core

A shallow embedding of the event-driven command loop of the cozmini
repository, together with theorems settling the frozen claims about it.

Embedded source:
* `event_messages.py` — the `EventMessages` log (`message`, `pop_all_events`,
  observer callbacks).
* `cozmini.py` — `generate_response` (Completer retry loop), `process_events`
  (context rendering, stop keyword, system-message dedup), and the
  `cozmo_says` insertion step of `cozmo_program`.
* `cozmo_api_base.py` / `cozmo_api.py` — `execute_tool_calls` (structured
  tool-call dispatch) and `execute_commands` (line-oriented command strings).

Python strings are modelled as Lean `String`, with the Python `str` methods
the code uses (`strip`, `lower`, `split`, `startswith`, `endswith`,
`splitlines`, substring test) implemented over `String.data` by structural
recursion so that every definition evaluates inside the kernel.  The
whitespace set and the case mapping are the ASCII fragments of Python's,
which covers every text the embedded code builds or tests.

Python's `float()` constructor (used for argument coercion, where only
success or `ValueError` matters, never the rounded value) and the `ast`
based line parser `_parse_api_call` (an external library producing the
(name, argument-tokens) split of a line, or raising) are taken as
parameters of the embedding.
-/

namespace Cozmini

/-! ## Python string primitives -/

/-- Python `str.strip()` on the character list: drop leading and trailing
whitespace. -/
def stripChars (l : List Char) : List Char :=
  ((l.dropWhile Char.isWhitespace).reverse.dropWhile Char.isWhitespace).reverse

/-- Python `message.strip()`. -/
def pyStrip (s : String) : String := ⟨stripChars s.data⟩

/-- ASCII lower-casing of one character, the fragment of Python `str.lower`
exercised by the code. -/
def lowerChar (c : Char) : Char :=
  if 'A' ≤ c ∧ c ≤ 'Z' then Char.ofNat (c.toNat + 32) else c

/-- Python `message.lower()`. -/
def pyLower (s : String) : String := ⟨s.data.map lowerChar⟩

/-- Python `s.startswith(p)` on character lists. -/
def listStartsWith : List Char → List Char → Bool
  | [], _ => true
  | _ :: _, [] => false
  | a :: as, b :: bs => a == b && listStartsWith as bs

/-- Python `s.endswith(p)` on character lists. -/
def listEndsWith (p l : List Char) : Bool :=
  listStartsWith p.reverse l.reverse

/-- Python `sep in s`: does `sep` occur as a contiguous substring? -/
def containsSub (sep : List Char) : List Char → Bool
  | [] => listStartsWith sep []
  | c :: cs => listStartsWith sep (c :: cs) || containsSub sep cs

/-- Python `s.split(sep, 1)[0]`: the characters before the first occurrence
of `sep` (all of `l` when `sep` does not occur). -/
def beforeSep (sep : List Char) : List Char → List Char
  | [] => []
  | c :: cs => if listStartsWith sep (c :: cs) then [] else c :: beforeSep sep cs

/-- Helper for `pySplitlines`: split at `'\n'`, Python-style (a trailing
newline closes the last line instead of opening an empty one). -/
def splitlinesAux : List Char → List Char → List (List Char)
  | [], acc => [acc.reverse]
  | '\n' :: [], acc => [acc.reverse]
  | '\n' :: cs, acc => acc.reverse :: splitlinesAux cs []
  | c :: cs, acc => splitlinesAux cs (c :: acc)

/-- Python `command_string.splitlines()` restricted to `'\n'` terminators,
the only line break the embedded call sites produce. -/
def pySplitlines (s : String) : List String :=
  match s.data with
  | [] => []
  | l => (splitlinesAux l []).map fun cs => ⟨cs⟩

/-! ## `event_messages.py`: the `EventMessages` log -/

/-- `EventType` of `event_messages.py`. -/
inductive EventType where
  | USER_MESSAGE
  | API_CALL
  | API_RESULT
  | SYSTEM_MESSAGE
  | VOICE_EVENT_LISTENING
  | VOICE_EVENT_FINISHED
  deriving DecidableEq, Repr

/-- One queued event: the `(event_type, event_message)` pair the Python code
appends to `event_list`. -/
abbrev Event := EventType × String

/-- An observer callback registered with `add_callback`.  A Python callback
either returns (`ok`) or raises an exception carrying a message
(`error`). -/
abbrev Callback := Event → Except String Unit

/-- The state of an `EventMessages` instance: `event_list` and
`event_callbacks`, as in `EventMessages.__init__`. -/
structure EventMessages where
  event_list : List Event
  event_callbacks : List Callback

/-- The `for fn in self.event_callbacks: fn(event)` loop of
`EventMessages.message`, run within Python's exception semantics: callbacks
fire in registration order until one raises; a raised exception aborts the
loop and propagates.  Returns (number of callbacks invoked, the propagated
exception if any). -/
def runCallbacks (e : Event) : List Callback → Nat × Option String
  | [] => (0, none)
  | f :: fs =>
    match f e with
    | .ok _ => let r := runCallbacks e fs; (r.1 + 1, r.2)
    | .error msg => (1, some msg)

/-- `EventMessages.message(event_type, event_message)`: append the event to
`event_list`, then notify every callback.  Returns the new state, how many
callbacks were invoked, and the exception propagating out of `message`
(if a callback raised).  The append happens before any callback runs. -/
def message (s : EventMessages) (t : EventType) (m : String) :
    EventMessages × Nat × Option String :=
  let s' : EventMessages := { s with event_list := s.event_list ++ [(t, m)] }
  let r := runCallbacks (t, m) s.event_callbacks
  (s', r.1, r.2)

/-- `EventMessages.pop_all_events()`: read the current length `n`, keep the
first `n` elements as the drained batch, and leave the remainder queued. -/
def pop_all_events (s : EventMessages) : List Event × EventMessages :=
  let n := s.event_list.length
  let pop := s.event_list.take n
  (pop, { s with event_list := s.event_list.drop n })

/-- One operation of the append/drain step relation over an `EventMessages`
log. -/
inductive LogOp where
  | append (t : EventType) (m : String)
  | drain

/-- Run a sequence of `append`/`drain` operations from a state, collecting
the batch returned by every drain in order. -/
def runLog (s : EventMessages) : List LogOp → EventMessages × List (List Event)
  | [] => (s, [])
  | .append t m :: ops => runLog (message s t m).1 ops
  | .drain :: ops =>
    ((runLog (pop_all_events s).2 ops).1,
     (pop_all_events s).1 :: (runLog (pop_all_events s).2 ops).2)

/-- The events a trace appends, in order. -/
def appendedOf : List LogOp → List Event
  | [] => []
  | .append t m :: ops => (t, m) :: appendedOf ops
  | .drain :: ops => appendedOf ops

/-- Fresh log with a given set of observers (`event_list = []`, as in
`EventMessages.__init__`). -/
def freshLog (cbs : List Callback) : EventMessages := ⟨[], cbs⟩

theorem runLog_invariant (ops : List LogOp) (s : EventMessages) :
    ((runLog s ops).2.flatten ++ (runLog s ops).1.event_list
      = s.event_list ++ appendedOf ops)
    ∧ (runLog s ops).1.event_callbacks = s.event_callbacks := by
  induction ops generalizing s with
  | nil => simp [runLog, appendedOf]
  | cons op ops ih =>
    cases op with
    | append t m =>
      have h1 := (ih (message s t m).1).1
      have h2 := (ih (message s t m).1).2
      refine ⟨?_, ?_⟩
      · simp only [runLog, appendedOf]
        rw [h1]
        simp [message]
      · simp only [runLog]
        rw [h2]
        simp [message]
    | drain =>
      have h1 := (ih (pop_all_events s).2).1
      have h2 := (ih (pop_all_events s).2).2
      refine ⟨?_, ?_⟩
      · simp only [runLog, appendedOf, List.flatten_cons, List.append_assoc]
        rw [h1]
        simp [pop_all_events]
      · simp only [runLog]
        rw [h2]
        simp [pop_all_events]

theorem runLog_append_dist (s : EventMessages) (ops₁ ops₂ : List LogOp) :
    runLog s (ops₁ ++ ops₂)
      = ((runLog (runLog s ops₁).1 ops₂).1,
         (runLog s ops₁).2 ++ (runLog (runLog s ops₁).1 ops₂).2) := by
  induction ops₁ generalizing s with
  | nil => simp [runLog]
  | cons op ops ih =>
    cases op with
    | append t m => simp [runLog, ih]
    | drain => simp [runLog, ih]

/-- C1.  Append/drain traces over an `EventMessages` log, run as a step
relation from the fresh log: the concatenation of the batches returned by
the drains, followed by the events still queued (those appended after the
last drain, which the next drain would return), equals the sequence of
appended events — no event is lost or duplicated, each drained event lies in
exactly one batch, append order is preserved, and a drain placed at the end
of the trace returns exactly the still-queued events. -/
theorem eventLog_drains_exact (cbs : List Callback) (ops : List LogOp) :
    ((runLog (freshLog cbs) ops).2.flatten
        ++ (runLog (freshLog cbs) ops).1.event_list
      = appendedOf ops)
    ∧ (runLog (freshLog cbs) (ops ++ [.drain])).2
      = (runLog (freshLog cbs) ops).2
          ++ [(runLog (freshLog cbs) ops).1.event_list] := by
  constructor
  · have h := (runLog_invariant ops (freshLog cbs)).1
    simpa [freshLog] using h
  · rw [runLog_append_dist]
    simp [runLog, pop_all_events]

/-- Witness for C1 at a concrete trace: two appends, a drain, one more
append; the drain returns the first two events and the third stays queued
for the next drain. -/
theorem eventLog_drains_exact_witness :
    (runLog (freshLog [])
        [.append .USER_MESSAGE "hi", .append .SYSTEM_MESSAGE "battery low",
         .drain, .append .USER_MESSAGE "bye"]).2.flatten
      ++ (runLog (freshLog [])
        [.append .USER_MESSAGE "hi", .append .SYSTEM_MESSAGE "battery low",
         .drain, .append .USER_MESSAGE "bye"]).1.event_list
      = [(.USER_MESSAGE, "hi"), (.SYSTEM_MESSAGE, "battery low"),
         (.USER_MESSAGE, "bye")] :=
  (eventLog_drains_exact []
    [.append .USER_MESSAGE "hi", .append .SYSTEM_MESSAGE "battery low",
     .drain, .append .USER_MESSAGE "bye"]).1

/-! ## `cozmini.py`: `process_events`

`process_events` drains the log and folds the drained events into a textual
context.  The model takes the drained event list and the `"%H:%M:%S"`
timestamp string as inputs; `_system_messages` (a Python set reassigned to
`set()` at every call) is the `seen` accumulator. -/

/-- `_API_PROMPT` of `cozmini.py`. -/
def API_PROMPT : String := "API calls"

/-- The speaker-identification test of `process_events` (cozmini.py lines
126-134): the message contains a `": "` separator and the part before its
first occurrence either is enclosed in brackets or is shorter than 30
characters and does not start with `"User"`. -/
def has_speaker_id (m : String) : Bool :=
  if containsSub [':', ' '] m.data then
    (listStartsWith ['['] (beforeSep [':', ' '] m.data)
        && listEndsWith [']'] (beforeSep [':', ' '] m.data))
      || (decide ((beforeSep [':', ' '] m.data).length < 30)
        && !listStartsWith "User".data (beforeSep [':', ' '] m.data))
  else false

/-- The line a `USER_MESSAGE` contributes: the stripped text unchanged when
it carries a speaker tag, else prefixed with `"User says: "`. -/
def userLine (m : String) : String :=
  if has_speaker_id m then m ++ "\n" else "User says: " ++ m ++ "\n"

/-- The line an `API_CALL` contributes: `f'{_API_PROMPT}: {message}\n'`. -/
def apiLine (m : String) : String := API_PROMPT ++ ": " ++ m ++ "\n"

/-- The line a `SYSTEM_MESSAGE` contributes:
`f'System message ({time}): {message}\n'`. -/
def sysLine (tm m : String) : String :=
  "System message (" ++ tm ++ "): " ++ m ++ "\n"

/-- The event loop of `process_events` (cozmini.py lines 119-148): strip the
message, set `stop` on a user message equal to `"bye"` after lowering,
render user / API-call / system / voice-finished events, suppress a system
message already in the `seen` set; `API_RESULT` and `VOICE_EVENT_LISTENING`
contribute nothing (the `API_RESULT` branch is commented out in the
source). -/
def processGo (tm : String) :
    List Event → String → Bool → List String → String × Bool
  | [], context, stop, _seen => (context, stop)
  | (t, msg0) :: events, context, stop, seen =>
    let m := pyStrip msg0
    match t with
    | .USER_MESSAGE =>
      let stop' := if pyLower m = "bye" then true else stop
      processGo tm events (context ++ userLine m) stop' seen
    | .API_CALL => processGo tm events (context ++ apiLine m) stop seen
    | .SYSTEM_MESSAGE =>
      if seen.contains m then processGo tm events context stop seen
      else processGo tm events (context ++ sysLine tm m) stop (m :: seen)
    | .VOICE_EVENT_FINISHED =>
      processGo tm events (context ++ sysLine tm "Cozmo stopped listening.") stop seen
    | _ => processGo tm events context stop seen

/-- `process_events(event_log)` applied to the drained events: context starts
empty, `stop` false, `_system_messages` freshly empty. -/
def process_events (tm : String) (events : List Event) : String × Bool :=
  processGo tm events "" false []

/-- Does an event make `process_events` set `stop`?  (`USER_MESSAGE` whose
stripped, lowered text is `"bye"`.) -/
def isByeEvent (e : Event) : Bool :=
  match e.1 with
  | .USER_MESSAGE => pyLower (pyStrip e.2) == "bye"
  | _ => false

theorem str_empty_append (s : String) : "" ++ s = s := by
  cases s
  rfl

theorem str_append_empty (s : String) : s ++ "" = s :=
  String.ext (by simp [String.data_append])

theorem str_append_assoc (a b c : String) : a ++ b ++ c = a ++ (b ++ c) :=
  String.ext (by simp [String.data_append, List.append_assoc])

theorem processGo_snd (tm : String) (events : List Event) :
    ∀ ctx stop seen, (processGo tm events ctx stop seen).2
      = (stop || events.any isByeEvent) := by
  induction events with
  | nil => simp [processGo]
  | cons e events ih =>
    intro ctx stop seen
    obtain ⟨t, msg0⟩ := e
    cases t with
    | USER_MESSAGE =>
      simp only [processGo, ih, List.any_cons]
      by_cases hb : pyLower (pyStrip msg0) = "bye"
      · simp [hb, isByeEvent]
      · have hb' : (pyLower (pyStrip msg0) == "bye") = false := by
          simpa using hb
        simp [hb, isByeEvent, hb']
    | API_CALL => simp [processGo, ih, isByeEvent]
    | API_RESULT => simp [processGo, ih, isByeEvent]
    | SYSTEM_MESSAGE =>
      simp only [processGo]
      split <;> simp [ih, isByeEvent]
    | VOICE_EVENT_LISTENING => simp [processGo, ih, isByeEvent]
    | VOICE_EVENT_FINISHED => simp [processGo, ih, isByeEvent]

/-- C4.  `process_events` reports `stop = true` exactly when some drained
`USER_MESSAGE` has text whose stripped, lowered form is `"bye"`; no other
event kind stops the session, and user texts that merely contain the word
(`"bye there"`) or carry a speaker prefix (`"Alice: bye"`) do not stop
it, while `" Bye "` does. -/
theorem process_events_stop_iff (tm : String) (events : List Event) :
    ((process_events tm events).2 = true
      ↔ ∃ m, (EventType.USER_MESSAGE, m) ∈ events ∧ pyLower (pyStrip m) = "bye")
    ∧ (process_events tm [(.USER_MESSAGE, " Bye ")]).2 = true
    ∧ (process_events tm [(.USER_MESSAGE, "bye there")]).2 = false
    ∧ (process_events tm [(.USER_MESSAGE, "Alice: bye")]).2 = false
    ∧ (process_events tm [(.SYSTEM_MESSAGE, "bye")]).2 = false := by
  refine ⟨?_, ?_, ?_, ?_, ?_⟩
  · rw [process_events, processGo_snd]
    simp only [Bool.false_or, List.any_eq_true, isByeEvent]
    constructor
    · rintro ⟨⟨t, m⟩, hmem, h⟩
      cases t <;> simp [isByeEvent] at h
      exact ⟨m, hmem, h⟩
    · rintro ⟨m, hmem, h⟩
      exact ⟨(EventType.USER_MESSAGE, m), hmem, by simp [isByeEvent, h]⟩
  · rw [process_events, processGo_snd]; decide
  · rw [process_events, processGo_snd]; decide
  · rw [process_events, processGo_snd]; decide
  · rw [process_events, processGo_snd]; decide

/-- C8.  Rendering of a drained `USER_MESSAGE`: the stripped text is
prefixed with `"User says: "` unless it carries a speaker tag (a `": "`
separator whose prefix is bracketed, or is shorter than 30 characters and
does not start with `"User"`), in which case it passes through unchanged.
Concretely, `"Alice: turn left"` passes through, `"turn left"` gets the
prefix, `"[unrecognized]: hi"` counts as tagged, and `"User 1: hi"` or a
30-character untagged prefix do not. -/
theorem user_message_rendering (tm t : String) :
    ((process_events tm [(.USER_MESSAGE, t)]).1
      = if has_speaker_id (pyStrip t) then pyStrip t ++ "\n"
        else "User says: " ++ pyStrip t ++ "\n")
    ∧ (process_events tm [(.USER_MESSAGE, "Alice: turn left")]).1
      = "Alice: turn left\n"
    ∧ (process_events tm [(.USER_MESSAGE, "turn left")]).1
      = "User says: turn left\n"
    ∧ has_speaker_id "[unrecognized]: hi" = true
    ∧ has_speaker_id "User 1: hi" = false
    ∧ has_speaker_id "aaaaabbbbbcccccdddddeeeeefffff: hi" = false := by
  refine ⟨?_, ?_, ?_, by decide, by decide, by decide⟩
  · simp only [process_events, processGo, userLine]
    split <;> rw [str_empty_append]
  · have h : pyStrip "Alice: turn left" = "Alice: turn left" := by decide
    have hs : has_speaker_id "Alice: turn left" = true := by decide
    simp [process_events, processGo, userLine, h, hs, str_empty_append]
  · have h : pyStrip "turn left" = "turn left" := by decide
    have hs : has_speaker_id "turn left" = false := by decide
    simp [process_events, processGo, userLine, h, hs, str_empty_append]

/-! ### System-message deduplication (C9) -/

/-- First-occurrence deduplication relative to an already-seen set: the
functional core of the `_system_messages` suppression. -/
def dedupFrom (seen : List String) : List String → List String
  | [] => []
  | m :: ms =>
    if seen.contains m then dedupFrom seen ms
    else m :: dedupFrom (m :: seen) ms

/-- Concatenation of rendered lines. -/
def concatStr : List String → String
  | [] => ""
  | s :: ss => s ++ concatStr ss

theorem processGo_system (tm : String) (msgs : List String) :
    ∀ ctx stop seen,
      processGo tm (msgs.map fun m => ((EventType.SYSTEM_MESSAGE, m) : Event))
          ctx stop seen
        = (ctx ++ concatStr ((dedupFrom seen (msgs.map pyStrip)).map (sysLine tm)),
           stop) := by
  induction msgs with
  | nil => intro ctx stop seen; simp [processGo, dedupFrom, concatStr, str_append_empty]
  | cons m msgs ih =>
    intro ctx stop seen
    simp only [List.map_cons, processGo, dedupFrom]
    by_cases h : pyStrip m ∈ seen
    · simp [h, ih]
    · simp [h, ih, concatStr, str_append_assoc]

theorem dedupFrom_count (m : String) (l : List String) :
    ∀ seen, (dedupFrom seen l).count m
      = if m ∈ l ∧ m ∉ seen then 1 else 0 := by
  induction l with
  | nil => intro seen; simp [dedupFrom]
  | cons a l ih =>
    intro seen
    simp only [dedupFrom]
    by_cases ha : a ∈ seen
    · rw [if_pos (by simpa using ha), ih]
      by_cases hm : m = a
      · subst hm; simp [ha]
      · simp [List.mem_cons, hm]
    · rw [if_neg (by simpa using ha)]
      by_cases hm : m = a
      · subst hm
        have h0 : (dedupFrom (m :: seen) l).count m = 0 := by
          rw [ih]; simp
        simp [List.count_cons_self, h0, ha]
      · rw [List.count_cons_of_ne hm, ih]
        simp [List.mem_cons, hm]

/-- C9 (amended).  Within one `process_events` call, system messages are
deduplicated on their stripped text: a batch of `SYSTEM_MESSAGE` events
renders one `"System message (<time>): <text>"` line per distinct stripped
text, in first-occurrence order — each such line exactly once, texts that
strip to the same string only once. -/
theorem system_message_dedup (tm : String) (msgs : List String) :
    ((process_events tm (msgs.map fun m => ((EventType.SYSTEM_MESSAGE, m) : Event))).1
      = concatStr ((dedupFrom [] (msgs.map pyStrip)).map (sysLine tm)))
    ∧ ∀ m, (dedupFrom [] (msgs.map pyStrip)).count m
        = if m ∈ msgs.map pyStrip then 1 else 0 := by
  constructor
  · rw [process_events, processGo_system, str_empty_append]
  · intro m
    rw [dedupFrom_count]
    simp

/-- Counterexample to C9 as stated: two `SYSTEM_MESSAGE` events with
distinct texts (`"battery low"` and `" battery low "`) drained together
render as one line, not two — deduplication happens after stripping. -/
theorem system_message_dedup_counterexample :
    (process_events "12:00:00"
        [(.SYSTEM_MESSAGE, "battery low"), (.SYSTEM_MESSAGE, " battery low ")]).1
      = "System message (12:00:00): battery low\n"
    ∧ "battery low" ≠ " battery low " := by
  constructor
  · decide
  · decide

/-! ## Observer failure semantics of `EventMessages.message` (C6)

`message` appends the event and then runs `for fn in self.event_callbacks:
fn(event)` with no `try`/`except` around the loop: the append always lands,
but a raising callback aborts the loop and its exception leaves
`message`. -/

theorem runCallbacks_first_error (e : Event) (err : String)
    (f : Callback) (hf : f e = .error err) :
    ∀ (pre rest : List Callback), (∀ g ∈ pre, g e = .ok ()) →
      runCallbacks e (pre ++ f :: rest) = (pre.length + 1, some err) := by
  intro pre
  induction pre with
  | nil => intro rest _; simp [runCallbacks, hf]
  | cons g pre ih =>
    intro rest hpre
    have hg : g e = .ok () := hpre g (List.mem_cons_self g pre)
    have htail : ∀ g ∈ pre, g e = .ok () := fun g hgm =>
      hpre g (List.mem_cons_of_mem _ hgm)
    simp [runCallbacks, hg, ih rest htail]

/-- C6 (amended).  When an observer callback raises during
`EventMessages.message`, the event is nonetheless enqueued (the append
precedes the notification loop), but the exception of the first raising
callback propagates out of `message` and the callbacks registered after it
are not invoked: exactly the successful prefix plus the raising callback
run. -/
theorem observer_exception_behavior (s : EventMessages) (t : EventType)
    (m : String) (pre : List Callback) (f : Callback) (rest : List Callback)
    (err : String) (hcb : s.event_callbacks = pre ++ f :: rest)
    (hpre : ∀ g ∈ pre, g (t, m) = .ok ()) (hf : f (t, m) = .error err) :
    (message s t m).1.event_list = s.event_list ++ [(t, m)]
    ∧ (message s t m).2.1 = pre.length + 1
    ∧ (message s t m).2.2 = some err := by
  refine ⟨by simp [message], ?_, ?_⟩
  · simp [message, hcb, runCallbacks_first_error (t, m) err f hf pre rest hpre]
  · simp [message, hcb, runCallbacks_first_error (t, m) err f hf pre rest hpre]

/-- A callback that raises on every event. -/
def demoFailingCallback : Callback := fun _ => .error "observer failure"

/-- A callback that returns normally on every event. -/
def demoOkCallback : Callback := fun _ => .ok ()

/-- Fresh log with a raising observer registered before a healthy one. -/
def demoObserverLog : EventMessages :=
  ⟨[], [demoFailingCallback, demoOkCallback]⟩

/-- Counterexample to C6 as stated: with two registered observers of which
the first raises, `message` still enqueues the event, but it invokes only
one of the two observers and the exception propagates out of `message`
(nothing is caught or swallowed). -/
theorem observer_exception_counterexample :
    demoObserverLog.event_callbacks.length = 2
    ∧ (message demoObserverLog .USER_MESSAGE "hi").1.event_list
      = [(.USER_MESSAGE, "hi")]
    ∧ (message demoObserverLog .USER_MESSAGE "hi").2.1 = 1
    ∧ (message demoObserverLog .USER_MESSAGE "hi").2.2 = some "observer failure" :=
  ⟨rfl, rfl, rfl, rfl⟩

/-- Witness for C6's amended theorem at the concrete log above: the raising
observer is first (`pre = []`), one callback runs, the exception
propagates, the event is enqueued. -/
theorem observer_exception_behavior_witness :
    (message demoObserverLog .USER_MESSAGE "hi").1.event_list = [(.USER_MESSAGE, "hi")]
    ∧ (message demoObserverLog .USER_MESSAGE "hi").2.1 = 0 + 1
    ∧ (message demoObserverLog .USER_MESSAGE "hi").2.2 = some "observer failure" := by
  have h := observer_exception_behavior demoObserverLog .USER_MESSAGE "hi"
    [] demoFailingCallback [demoOkCallback] "observer failure"
    rfl (by simp) rfl
  simpa using h

/-! ## `cozmini.py`: `generate_response` (C3)

The Completer retry loop `for retrie in range(5)`.  The model call of one
iteration either raises an ordinary `Exception`, raises
`KeyboardInterrupt`, returns a reply with no content/parts (the `continue`
at line 52), or returns a list of parts.  In the Python source the handler
`except Exception` at line 73 precedes the handler at lines 79-81 that
would `time.sleep(15)`; since every transient error is an `Exception`, the
first handler always matches and the second — the only one containing the
backoff — is unreachable.  `KeyboardInterrupt` does not derive from
`Exception`, so it reaches its own handler at line 76 and is re-raised.
The model counts `send_message` invocations (`calls`) and executed
`time.sleep(15)` statements (`sleeps`). -/

/-- A structured tool call: name and keyword arguments with raw string
values. -/
structure ToolCall where
  name : String
  args : List (String × String)
  deriving DecidableEq, Repr

/-- One part of a Completer reply: an optional `function_call` and a text
(empty when the part carries none). -/
structure GPart where
  function_call : Option ToolCall
  text : String
  deriving DecidableEq, Repr

/-- What one Completer attempt does. -/
inductive AttemptOutcome where
  | raises
  | keyboardInterrupt
  | emptyContent
  | returns (parts : List GPart)

/-- The part-collection loop of `generate_response` (lines 54-58): function
calls appended in order, non-empty texts concatenated in order. -/
def collectParts : List GPart → String × List ToolCall
  | [] => ("", [])
  | p :: ps =>
    ((if p.text ≠ "" then p.text else "") ++ (collectParts ps).1,
     match p.function_call with
     | some fc => fc :: (collectParts ps).2
     | none => (collectParts ps).2)

/-- What a `generate_response` run produces: the returned output and tool
calls, the number of model calls made, and the number of 15-second backoff
sleeps executed. -/
structure GenResult where
  output : String
  tool_calls : List ToolCall
  calls : Nat
  sleeps : Nat
  deriving DecidableEq, Repr

/-- Book-keeping of a retried iteration: the iteration's own model call is
counted on top of whatever the remaining attempts do; an exception
propagating from deeper attempts passes through. -/
def retryStep : Except Unit GenResult → Except Unit GenResult
  | .ok r => .ok { r with calls := r.calls + 1 }
  | .error e => .error e

/-- The retry loop body, on attempt index `i` with `fuel` iterations left
(`fuel = 5 - i`).  Loop exhaustion returns the last iteration's freshly
reset `output = ''` and `tool_calls = []`. -/
def genLoop (completer : Nat → AttemptOutcome) : Nat → Nat → Except Unit GenResult
  | _, 0 => .ok ⟨"", [], 0, 0⟩
  | i, fuel + 1 =>
    match completer i with
    | .returns parts =>
      if parts.isEmpty then retryStep (genLoop completer (i + 1) fuel)
      else .ok ⟨(collectParts parts).1, (collectParts parts).2, 1, 0⟩
    | .raises => retryStep (genLoop completer (i + 1) fuel)
    | .emptyContent => retryStep (genLoop completer (i + 1) fuel)
    | .keyboardInterrupt => .error ()

/-- `generate_response`: up to 5 attempts starting at index 0. -/
def generate_response (completer : Nat → AttemptOutcome) : Except Unit GenResult :=
  genLoop completer 0 5

theorem retryStep_ok (x : Except Unit GenResult) (r : GenResult)
    (h : retryStep x = .ok r) : ∃ r', x = .ok r' ∧ r.sleeps = r'.sleeps := by
  cases x with
  | ok r' =>
    simp only [retryStep] at h
    cases h
    exact ⟨r', rfl, rfl⟩
  | error e => simp [retryStep] at h

theorem genLoop_sleeps_zero (completer : Nat → AttemptOutcome) :
    ∀ fuel i r, genLoop completer i fuel = .ok r → r.sleeps = 0 := by
  intro fuel
  induction fuel with
  | zero =>
    intro i r h
    simp only [genLoop] at h
    cases h
    rfl
  | succ fuel ih =>
    intro i r h
    simp only [genLoop] at h
    rcases hci : completer i with _ | _ | _ | parts <;> simp only [hci] at h
    · obtain ⟨r', hr', hs⟩ := retryStep_ok _ _ h
      rw [hs]
      exact ih (i + 1) r' hr'
    · exact absurd h (by simp)
    · obtain ⟨r', hr', hs⟩ := retryStep_ok _ _ h
      rw [hs]
      exact ih (i + 1) r' hr'
    · by_cases hp : parts.isEmpty
      · rw [if_pos hp] at h
        obtain ⟨r', hr', hs⟩ := retryStep_ok _ _ h
        rw [hs]
        exact ih (i + 1) r' hr'
      · rw [if_neg hp] at h
        cases h
        rfl

/-- The Completer of spec Scenario E: a transient error on the first four
attempts, success with output `"Hello!"` on the fifth. -/
def transientThenOk : Nat → AttemptOutcome := fun i =>
  if i < 4 then .raises else .returns [⟨none, "Hello!"⟩]

/-- C3 (code bug).  Against Scenario E's Completer, `generate_response`
makes exactly 5 model calls and returns the 5th attempt's output — but it
executes zero backoff sleeps, because the `except` clause containing
`time.sleep(15)` is dead code (an earlier `except Exception` catches every
transient error first).  Exhausting all 5 attempts returns empty output
and no tool calls, again with zero sleeps; indeed no run of
`generate_response` ever sleeps. -/
theorem generate_response_no_backoff :
    generate_response transientThenOk = .ok ⟨"Hello!", [], 5, 0⟩
    ∧ generate_response (fun _ => .raises) = .ok ⟨"", [], 5, 0⟩
    ∧ ∀ completer r, generate_response completer = .ok r → r.sleeps = 0 := by
  refine ⟨rfl, rfl, ?_⟩
  intro completer r h
  exact genLoop_sleeps_zero completer 5 0 r h

/-! ## `cozmini.py`: the synthetic `cozmo_says` call (C10)

`cozmo_program` lines 377-379: when the reply text is non-empty, a
`ToolCall(name="cozmo_says", args={"text": response})` is inserted at
position 0 of the tool-call list before dispatch. -/

/-- The insertion step of `cozmo_program`: `if response:
tool_calls.insert(0, ToolCall("cozmo_says", {"text": response}))`. -/
def insert_cozmo_says (response : String) (tool_calls : List ToolCall) :
    List ToolCall :=
  if response ≠ "" then ⟨"cozmo_says", [("text", response)]⟩ :: tool_calls
  else tool_calls

/-- C10.  Whenever the Completer reply carries non-empty text — whether or
not it also carries structured tool calls — the synthetic `cozmo_says`
call holding that text sits at position 0 of the dispatched list and the
model's own tool calls follow unchanged, in order; with empty reply text
the list is dispatched as-is. -/
theorem cozmo_says_inserted_first (response : String) (tool_calls : List ToolCall) :
    (response ≠ "" →
      insert_cozmo_says response tool_calls
        = ⟨"cozmo_says", [("text", response)]⟩ :: tool_calls
      ∧ (insert_cozmo_says response tool_calls).head?
        = some ⟨"cozmo_says", [("text", response)]⟩
      ∧ (insert_cozmo_says response tool_calls).tail = tool_calls)
    ∧ (response = "" → insert_cozmo_says response tool_calls = tool_calls) := by
  constructor
  · intro h
    refine ⟨?_, ?_, ?_⟩ <;> simp [insert_cozmo_says, h]
  · intro h
    simp [insert_cozmo_says, h]

/-! ## `cozmo_api_base.py`: `execute_tool_calls` (C2, C7)

Dispatch of structured tool calls.  Per call, inside one `try`: resolve the
method (`hasattr`/`callable`, else an `AttributeError` is raised), walk the
signature's parameters validating presence of required ones and coercing
supplied ones (`float(...)` first, on `ValueError` the value is kept as
`f'"{value}"'` — the raw string wrapped in literal double quotes), then
invoke.  The `except` covers the whole body, so each call yields exactly
one result record and the loop always continues.  `float()` is a parameter
of the embedding (only success vs `ValueError` matters); event emission to
the log is taken as non-raising (the program's registered observers are
flag-setters; raising observers are studied separately on
`EventMessages.message`). -/

/-- A Python value as the dispatcher handles it: a `float()` result
(represented by the rational the literal denotes) or a string. -/
inductive PyVal where
  | num (q : Rat)
  | str (s : String)
  deriving DecidableEq, Repr

/-- Python's `float()` on a raw argument: `some` parse result, `none` for
`ValueError`. -/
abbrev TryFloat := String → Option Rat

/-- A bound method as `inspect.signature` and invocation see it: parameters
in declaration order with a has-default flag, and a body taking keyword
arguments and returning a value (`none` = Python `None`) or raising an
exception whose `str(e)` is the given message. -/
structure PyMethod where
  params : List (String × Bool)
  run : List (String × PyVal) → Except String (Option PyVal)

/-- The API object: the methods `hasattr`/`callable` resolution finds. -/
structure CozmoAPI where
  methods : List (String × PyMethod)

/-- `str(AttributeError(...))` for an unresolvable tool-call name. -/
def noMethodMsg (fname : String) : String :=
  "Class instance does not have a callable method named '" ++ fname ++ "'."

/-- `str(ValueError(...))` for a missing required parameter. -/
def missingParamMsg (p fname : String) : String :=
  "Required parameter '" ++ p ++ "' missing for function '" ++ fname ++ "'."

/-- Argument coercion (lines 151-154): `float(value)` first; on
`ValueError`, `f'"{value}"'` — the raw string wrapped in double quotes. -/
def coerceArg (tf : TryFloat) (raw : String) : PyVal :=
  match tf raw with
  | some q => .num q
  | none => .str ("\"" ++ raw ++ "\"")

/-- The signature walk (lines 149-159): parameters in order; a supplied one
is coerced into `valid_args`, an absent one with no default raises
`ValueError` at once. -/
def buildArgs (tf : TryFloat) (fname : String) :
    List (String × Bool) → List (String × String) →
      Except String (List (String × PyVal))
  | [], _ => .ok []
  | (p, hasDefault) :: ps, fargs =>
    match fargs.lookup p with
    | some raw =>
      match buildArgs tf fname ps fargs with
      | .ok rest => .ok ((p, coerceArg tf raw) :: rest)
      | .error e => .error e
    | none =>
      if hasDefault then buildArgs tf fname ps fargs
      else .error (missingParamMsg p fname)

/-- One result record of `execute_tool_calls`: on success `args` holds the
coerced `valid_args` and `result` the return value; on failure `args`
holds the original raw arguments and `error` holds `str(e)` (the success
record has no error key — modelled as `""` — and the failure record no
result — modelled as `none`). -/
structure Outcome where
  function_name : String
  args : List (String × PyVal)
  success : Bool
  result : Option PyVal
  error : String
  deriving DecidableEq, Repr

/-- The original raw arguments as they appear in a failure record. -/
def rawArgs (fargs : List (String × String)) : List (String × PyVal) :=
  fargs.map fun kv => (kv.1, PyVal.str kv.2)

/-- The `try`/`except` body for one tool call (lines 139-184): unknown or
non-callable name raises `AttributeError`; a missing required parameter
raises `ValueError`; the method itself may raise; every exception is
caught here and becomes a failure record. -/
def execOneCall (tf : TryFloat) (api : CozmoAPI) (c : ToolCall) : Outcome :=
  match api.methods.lookup c.name with
  | none => ⟨c.name, rawArgs c.args, false, none, noMethodMsg c.name⟩
  | some m =>
    match buildArgs tf c.name m.params c.args with
    | .error e => ⟨c.name, rawArgs c.args, false, none, e⟩
    | .ok valid_args =>
      match m.run valid_args with
      | .ok result => ⟨c.name, valid_args, true, result, ""⟩
      | .error e => ⟨c.name, rawArgs c.args, false, none, e⟩

/-- The `for tool_call in tool_calls` loop, appending each record to
`results`. -/
def execLoop (tf : TryFloat) (api : CozmoAPI) :
    List ToolCall → List Outcome → List Outcome
  | [], results => results
  | c :: cs, results => execLoop tf api cs (results ++ [execOneCall tf api c])

/-- `execute_tool_calls(tool_calls)`: results start empty (the empty-list
early return produces the same value). -/
def execute_tool_calls (tf : TryFloat) (api : CozmoAPI)
    (tool_calls : List ToolCall) : List Outcome :=
  execLoop tf api tool_calls []

theorem execLoop_eq (tf : TryFloat) (api : CozmoAPI) :
    ∀ (cs : List ToolCall) (results : List Outcome),
      execLoop tf api cs results = results ++ cs.map (execOneCall tf api) := by
  intro cs
  induction cs with
  | nil => intro results; simp [execLoop]
  | cons c cs ih => intro results; simp [execLoop, ih]

theorem str_append_data_ne (a b : String) (h : a.data ≠ []) : a ++ b ≠ "" := by
  intro he
  have h2 := congrArg String.data he
  rw [String.data_append] at h2
  have h0 : ("" : String).data = [] := rfl
  rw [h0, List.append_eq_nil] at h2
  exact h h2.1

theorem noMethodMsg_ne (fname : String) : noMethodMsg fname ≠ "" := by
  apply str_append_data_ne
  intro h
  have h2 := congrArg List.length (String.data_append _ _ ▸ h)
  simp at h2

theorem missingParamMsg_ne (p fname : String) : missingParamMsg p fname ≠ "" := by
  apply str_append_data_ne
  intro h
  have h2 := congrArg List.length (String.data_append _ _ ▸ h)
  simp at h2

theorem buildArgs_error_ne (tf : TryFloat) (fname : String) :
    ∀ (params : List (String × Bool)) (fargs : List (String × String))
      (e : String), buildArgs tf fname params fargs = .error e → e ≠ "" := by
  intro params
  induction params with
  | nil => intro fargs e h; simp [buildArgs] at h
  | cons pd ps ih =>
    intro fargs e h
    obtain ⟨p, hasDefault⟩ := pd
    simp only [buildArgs] at h
    rcases hl : fargs.lookup p with _ | raw <;> rw [hl] at h
    · cases hasDefault with
      | true =>
        rw [if_pos rfl] at h
        exact ih fargs e h
      | false =>
        rw [if_neg Bool.false_ne_true] at h
        cases h
        exact missingParamMsg_ne p fname
    · rcases hrec : buildArgs tf fname ps fargs with e' | rest <;> rw [hrec] at h
      · cases h
        exact ih fargs e hrec
      · cases h

/-- C2 (amended).  Tool-call dispatch is per-call isolated, ordered and
total: the result list is exactly the per-call outcomes in input order
(one failing call never suppresses later calls, and no exception escapes
`execute_tool_calls`).  An unresolvable name and a missing required
parameter each yield a `success = false` outcome with a provably non-empty
error message; a raising method yields a `success = false` outcome whose
error is `str` of the raised exception — which is empty exactly when the
exception's own message is empty. -/
theorem execute_tool_calls_isolated (tf : TryFloat) (api : CozmoAPI)
    (calls : List ToolCall) :
    (execute_tool_calls tf api calls = calls.map (execOneCall tf api))
    ∧ (∀ c : ToolCall, api.methods.lookup c.name = none →
        (execOneCall tf api c).success = false
        ∧ (execOneCall tf api c).error = noMethodMsg c.name
        ∧ (execOneCall tf api c).error ≠ "")
    ∧ (∀ (c : ToolCall) (m : PyMethod) (e : String),
        api.methods.lookup c.name = some m →
        buildArgs tf c.name m.params c.args = .error e →
        (execOneCall tf api c).success = false
        ∧ (execOneCall tf api c).error = e ∧ (execOneCall tf api c).error ≠ "")
    ∧ (∀ (c : ToolCall) (m : PyMethod) (va : List (String × PyVal))
        (e : String),
        api.methods.lookup c.name = some m →
        buildArgs tf c.name m.params c.args = .ok va →
        m.run va = .error e →
        (execOneCall tf api c).success = false
        ∧ (execOneCall tf api c).error = e) := by
  refine ⟨execLoop_eq tf api calls [], ?_, ?_, ?_⟩
  · intro c h
    refine ⟨?_, ?_, ?_⟩ <;> simp [execOneCall, h]
    exact noMethodMsg_ne c.name
  · intro c m e hm he
    refine ⟨?_, ?_, ?_⟩ <;> simp [execOneCall, hm, he]
    exact buildArgs_error_ne tf c.name m.params c.args e he
  · intro c m va e hm hva hrun
    constructor <;> simp [execOneCall, hm, hva, hrun]

/-- `float()` as seen by a session whose arguments never parse as numbers:
every coercion falls back to the string branch (Python `float("hello")`
raises `ValueError`). -/
def demoTryFloat : TryFloat := fun _ => none

/-- A method raising `Exception()` — an exception whose `str` is empty. -/
def demoEmptyRaiseMethod : PyMethod := ⟨[], fun _ => .error ""⟩

/-- A method that returns normally. -/
def demoStatusMethod : PyMethod := ⟨[], fun _ => .ok (some (.str "ok"))⟩

/-- API with a raising method registered alongside a healthy one. -/
def demoRaisingApi : CozmoAPI :=
  ⟨[("boom", demoEmptyRaiseMethod), ("status", demoStatusMethod)]⟩

/-- Counterexample to C2 as stated: a bound method that raises an exception
with empty message produces a failure outcome whose error string is empty
(the claim demands a non-empty error for every failing call); the
subsequent call still executes in order. -/
theorem tool_call_empty_error_counterexample :
    (execute_tool_calls demoTryFloat demoRaisingApi
        [⟨"boom", []⟩, ⟨"status", []⟩]).map
        (fun o => (o.function_name, o.success, o.error))
      = [("boom", false, ""), ("status", true, "")] := rfl

/-- Witness for C2's amended theorem at a concrete input: an unknown name
fails with the non-empty `AttributeError` text while the following call
still runs. -/
theorem execute_tool_calls_isolated_witness :
    execute_tool_calls demoTryFloat demoRaisingApi
        [⟨"no_such", []⟩, ⟨"status", []⟩]
      = [execOneCall demoTryFloat demoRaisingApi ⟨"no_such", []⟩,
         execOneCall demoTryFloat demoRaisingApi ⟨"status", []⟩]
    ∧ (execOneCall demoTryFloat demoRaisingApi ⟨"no_such", []⟩).success = false
    ∧ (execOneCall demoTryFloat demoRaisingApi ⟨"no_such", []⟩).error ≠ "" := by
  have h := execute_tool_calls_isolated demoTryFloat demoRaisingApi
    [⟨"no_such", []⟩, ⟨"status", []⟩]
  have hu := h.2.1 ⟨"no_such", []⟩ rfl
  exact ⟨h.1, hu.1, hu.2.2⟩

theorem buildArgs_ok_iff (tf : TryFloat) (fname : String) :
    ∀ (params : List (String × Bool)) (fargs : List (String × String)),
      (∃ va, buildArgs tf fname params fargs = .ok va)
        ↔ ∀ pd ∈ params, pd.2 = false → (fargs.lookup pd.1).isSome := by
  intro params
  induction params with
  | nil =>
    intro fargs
    exact ⟨fun _ => by simp, fun _ => ⟨[], rfl⟩⟩
  | cons pd ps ih =>
    intro fargs
    obtain ⟨p, hasDefault⟩ := pd
    simp only [buildArgs]
    rcases hl : fargs.lookup p with _ | raw
    · cases hasDefault with
      | true =>
        rw [if_pos rfl]
        constructor
        · intro hok pd' hmem hreq
          rcases List.mem_cons.1 hmem with heq | hmem'
          · subst heq; cases hreq
          · exact ((ih fargs).1 hok) pd' hmem' hreq
        · intro hall
          exact (ih fargs).2 fun pd' hmem' hreq =>
            hall pd' (List.mem_cons_of_mem _ hmem') hreq
      | false =>
        rw [if_neg Bool.false_ne_true]
        constructor
        · rintro ⟨va, hva⟩; cases hva
        · intro hall
          have := hall (p, false) (List.mem_cons_self _ _) rfl
          rw [hl] at this
          cases this
    · constructor
      · rintro ⟨va, hva⟩ pd' hmem hreq
        rcases List.mem_cons.1 hmem with heq | hmem'
        · subst heq; rw [hl]; rfl
        · rcases hrec : buildArgs tf fname ps fargs with e | rest <;>
            rw [hrec] at hva
          · cases hva
          · exact ((ih fargs).1 ⟨rest, hrec⟩) pd' hmem' hreq
      · intro hall
        have hok := (ih fargs).2 fun pd' hmem' hreq =>
          hall pd' (List.mem_cons_of_mem _ hmem') hreq
        obtain ⟨rest, hrest⟩ := hok
        exact ⟨(p, coerceArg tf raw) :: rest, by rw [hrest]⟩

theorem buildArgs_ok_lookup (tf : TryFloat) (fname : String) :
    ∀ (params : List (String × Bool)) (fargs : List (String × String))
      (va : List (String × PyVal)),
      buildArgs tf fname params fargs = .ok va →
      ∀ pd ∈ params, ∀ raw, fargs.lookup pd.1 = some raw →
        va.lookup pd.1 = some (coerceArg tf raw) := by
  intro params
  induction params with
  | nil => intro fargs va h pd hmem; cases hmem
  | cons pd0 ps ih =>
    intro fargs va h pd hmem raw hraw
    obtain ⟨p, hasDefault⟩ := pd0
    simp only [buildArgs] at h
    rcases hl : fargs.lookup p with _ | raw0 <;> rw [hl] at h
    · cases hasDefault with
      | true =>
        rw [if_pos rfl] at h
        rcases List.mem_cons.1 hmem with heq | hmem'
        · subst heq
          simp only at hraw
          rw [hl] at hraw
          cases hraw
        · exact ih fargs va h pd hmem' raw hraw
      | false =>
        rw [if_neg Bool.false_ne_true] at h
        cases h
    · rcases hrec : buildArgs tf fname ps fargs with e | rest <;> rw [hrec] at h
      · cases h
      · cases h
        rcases List.mem_cons.1 hmem with heq | hmem'
        · subst heq
          simp only at hraw
          rw [hl] at hraw
          cases hraw
          simp [List.lookup]
        · by_cases hpp : pd.1 = p
          · rw [hpp] at hraw
            rw [hl] at hraw
            cases hraw
            simp [List.lookup, hpp]
          · have hres := ih fargs rest hrec pd hmem' raw hraw
            have hb : (pd.1 == p) = false := by simpa using hpp
            simpa [List.lookup, hb] using hres

/-- C7 (amended).  The dispatcher verifies required parameters and coerces
supplied ones: argument building succeeds exactly when every required
(no-default) parameter of the signature is supplied; every supplied
parameter is coerced numeric-first (`float()` success gives the number);
when numeric coercion fails the value becomes the original string wrapped
in double quotes (`f'"{value}"'`), not the bare original; and a failed
build (missing required parameter) yields a contained `success = false`
outcome carrying the `ValueError` text — nothing escapes `execute`. -/
theorem argument_validation_coercion (tf : TryFloat) (fname : String)
    (params : List (String × Bool)) (fargs : List (String × String))
    (api : CozmoAPI) (c : ToolCall) :
    ((∃ va, buildArgs tf fname params fargs = .ok va)
      ↔ ∀ pd ∈ params, pd.2 = false → (fargs.lookup pd.1).isSome)
    ∧ (∀ va, buildArgs tf fname params fargs = .ok va →
        ∀ pd ∈ params, ∀ raw, fargs.lookup pd.1 = some raw →
          va.lookup pd.1 = some (coerceArg tf raw))
    ∧ (∀ raw q, tf raw = some q → coerceArg tf raw = .num q)
    ∧ (∀ raw, tf raw = none →
        coerceArg tf raw = .str ("\"" ++ raw ++ "\""))
    ∧ (∀ (m : PyMethod) (e : String), api.methods.lookup c.name = some m →
        buildArgs tf c.name m.params c.args = .error e →
        execOneCall tf api c = ⟨c.name, rawArgs c.args, false, none, e⟩) := by
  refine ⟨buildArgs_ok_iff tf fname params fargs,
    fun va h => buildArgs_ok_lookup tf fname params fargs va h,
    ?_, ?_, ?_⟩
  · intro raw q h; simp [coerceArg, h]
  · intro raw h; simp [coerceArg, h]
  · intro m e hm he; simp [execOneCall, hm, he]

/-- A one-string-parameter method (like `cozmo_says`). -/
def demoSayMethod : PyMethod :=
  ⟨[("text", false)], fun _ => .ok (some (.str "done"))⟩

/-- API exposing `cozmo_says`. -/
def demoSayApi : CozmoAPI := ⟨[("cozmo_says", demoSayMethod)]⟩

/-- Counterexample to C7 as stated: a non-numeric argument `"hello"` is not
passed through as the original string — the dispatcher records
`"hello"` wrapped in double quotes. -/
theorem coercion_counterexample :
    ((execute_tool_calls demoTryFloat demoSayApi
        [⟨"cozmo_says", [("text", "hello")]⟩]).map (fun o => o.args)
      = [[("text", PyVal.str "\"hello\"")]])
    ∧ PyVal.str "\"hello\"" ≠ PyVal.str "hello" := by
  exact ⟨rfl, by decide⟩

/-- Witness for C7's amended theorem at a concrete input: with `text`
required and absent, building fails with the `ValueError` text and the
call yields a contained failure outcome. -/
theorem argument_validation_coercion_witness :
    (¬ ∃ va, buildArgs demoTryFloat "cozmo_says"
        [("text", false)] [] = .ok va)
    ∧ coerceArg demoTryFloat "hello" = .str ("\"" ++ "hello" ++ "\"")
    ∧ execOneCall demoTryFloat demoSayApi ⟨"cozmo_says", []⟩
      = ⟨"cozmo_says", [], false, none, missingParamMsg "text" "cozmo_says"⟩ := by
  have h := argument_validation_coercion demoTryFloat "cozmo_says"
    [("text", false)] [] demoSayApi ⟨"cozmo_says", []⟩
  refine ⟨?_, h.2.2.2.1 "hello" rfl, h.2.2.2.2 demoSayMethod _ rfl rfl⟩
  intro hok
  have := (h.1).1 hok (("text", false)) (List.mem_cons_self _ _) rfl
  simp [List.lookup] at this

/-! ## `cozmo_api.py`: `execute_commands` (C5)

The line-oriented command path (`CozmoAPI.execute_commands`, which
overrides the structurally identical `CozmoAPIBase.execute_commands`; the
stub API inherits the override).  The loop strips each line, skips empty
ones, and runs one `try`/`except` per line: parse the line with the
`ast`-based `_parse_api_call`, fetch the method (a missing name makes
`getattr` raise `AttributeError`, so the later `hasattr` branch is
unreachable), convert arguments `float()`-first keeping the raw token on
`ValueError` (unquoted, unlike `execute_tool_calls`), call, and record a
`"Result of <line>: ..."` message for truthy results.  Every exception is
caught inside the loop body and becomes the line's
`"Result of <line>: API Call Error: ..."` diagnostic, after which the loop
continues with the next line.  Each recorded message is also emitted as an
`API_RESULT` event. -/

/-- A method as `execute_commands` invokes it: positional arguments,
returning a result string (Python `None` and other falsy results modelled
as `""`, which the caller does not record) or raising. -/
structure CmdMethod where
  run : List PyVal → Except String String

/-- The API object seen through `getattr`. -/
structure CmdAPI where
  methods : List (String × CmdMethod)

/-- `_parse_api_call`: the (function name, raw argument tokens) split of a
line, or the text of the exception the `ast` parser raises.  Taken as a
parameter of the embedding. -/
abbrev ParseLine := String → Except String (String × List String)

/-- Argument conversion of `execute_commands` (lines 613-618): `float()`
first, keep the raw token on `ValueError`. -/
def convertArg (tf : TryFloat) (raw : String) : PyVal :=
  match tf raw with
  | some q => .num q
  | none => .str raw

/-- The per-line `try` body (lines 588-628): the messages this line appends
to `results`. -/
def processLine (tf : TryFloat) (api : CmdAPI) (parse : ParseLine)
    (line : String) : List String :=
  match parse line with
  | .error e => ["Result of " ++ line ++ ": API Call Error: " ++ e]
  | .ok (fname, args) =>
    match api.methods.lookup fname with
    | none =>
      ["Result of " ++ line ++ ": API Call Error: "
        ++ "'CozmoAPI' object has no attribute '" ++ fname ++ "'"]
    | some m =>
      match m.run (args.map (convertArg tf)) with
      | .ok result =>
        if result ≠ "" then ["Result of " ++ line ++ ": " ++ result] else []
      | .error e => ["Result of " ++ line ++ ": API Call Error: " ++ e]

/-- The `for line in command_string.splitlines()` loop. -/
def cmdLoop (tf : TryFloat) (api : CmdAPI) (parse : ParseLine) :
    List String → List String → List String
  | [], results => results
  | line0 :: rest, results =>
    if pyStrip line0 = "" then cmdLoop tf api parse rest results
    else cmdLoop tf api parse rest (results ++ processLine tf api parse (pyStrip line0))

/-- `execute_commands(command_string)`: the recorded result messages, in
order. -/
def execute_commands (tf : TryFloat) (api : CmdAPI) (parse : ParseLine)
    (command_string : String) : List String :=
  cmdLoop tf api parse (pySplitlines command_string) []

/-- The `API_RESULT` events `execute_commands` emits, one per recorded
message and with the same text. -/
def cmdEvents (results : List String) : List Event :=
  results.map fun r => (EventType.API_RESULT, r)

theorem cmdLoop_eq (tf : TryFloat) (api : CmdAPI) (parse : ParseLine) :
    ∀ (lines results : List String),
      cmdLoop tf api parse lines results
        = results
          ++ (((lines.map pyStrip).filter fun l => l ≠ "").map
              (processLine tf api parse)).flatten := by
  intro lines
  induction lines with
  | nil => intro results; simp [cmdLoop]
  | cons line0 rest ih =>
    intro results
    by_cases h : pyStrip line0 = ""
    · simp [cmdLoop, h, ih]
    · simp [cmdLoop, h, ih]

/-- C5 (amended).  A line of `execute_commands` that fails to parse or to
dispatch does not terminate processing of the block: the recorded messages
are exactly the per-line messages of every non-empty stripped line, in
order and independent of earlier lines' failures (the `try`/`except` sits
inside the loop and continues).  The failing line itself contributes a
`"Result of <line>: API Call Error: ..."` diagnostic, which is emitted as
an `API_RESULT` event rather than an "invalid call" system event. -/
theorem execute_commands_continues (tf : TryFloat) (api : CmdAPI)
    (parse : ParseLine) (command_string : String) :
    (execute_commands tf api parse command_string
      = ((((pySplitlines command_string).map pyStrip).filter fun l => l ≠ "").map
          (processLine tf api parse)).flatten)
    ∧ (∀ line e, parse line = .error e →
        processLine tf api parse line
          = ["Result of " ++ line ++ ": API Call Error: " ++ e])
    ∧ (∀ results, cmdEvents results
        = results.map fun r => (EventType.API_RESULT, r)) := by
  refine ⟨?_, ?_, fun _ => rfl⟩
  · rw [execute_commands, cmdLoop_eq]
    simp
  · intro line e h
    simp [processLine, h]

/-- A concrete `_parse_api_call` for the counterexample: it accepts the one
well-formed call line and raises a `SyntaxError` on anything else, as the
`ast` parser does. -/
def demoParse : ParseLine := fun line =>
  if line = "cozmo_says(\"hi\")" then .ok ("cozmo_says", ["hi"])
  else .error "invalid syntax (<unknown>, line 1)"

/-- A `cozmo_says` that reports success. -/
def demoCmdSays : CmdMethod := ⟨fun _ => .ok "said hi"⟩

/-- Command API exposing `cozmo_says`. -/
def demoCmdApi : CmdAPI := ⟨[("cozmo_says", demoCmdSays)]⟩

/-- Counterexample to C5 as stated: in a two-line block whose first line
fails to parse, the second line is still executed — the failing line only
contributes its own `API Call Error` diagnostic and nothing is dropped. -/
theorem execute_commands_counterexample :
    execute_commands demoTryFloat demoCmdApi demoParse
        "this is not a call\ncozmo_says(\"hi\")"
      = ["Result of this is not a call: API Call Error: invalid syntax (<unknown>, line 1)",
         "Result of cozmo_says(\"hi\"): said hi"] := rfl

/-- Witness for C5's amended theorem at the concrete two-line block: both
lines contribute their messages, in order. -/
theorem execute_commands_continues_witness :
    execute_commands demoTryFloat demoCmdApi demoParse
        "this is not a call\ncozmo_says(\"hi\")"
      = (((((pySplitlines "this is not a call\ncozmo_says(\"hi\")").map
            pyStrip).filter fun l => l ≠ "").map
          (processLine demoTryFloat demoCmdApi demoParse)).flatten)
    ∧ processLine demoTryFloat demoCmdApi demoParse "this is not a call"
      = ["Result of " ++ "this is not a call" ++ ": API Call Error: "
          ++ "invalid syntax (<unknown>, line 1)"] := by
  have h := execute_commands_continues demoTryFloat demoCmdApi demoParse
    "this is not a call\ncozmo_says(\"hi\")"
  exact ⟨h.1, h.2.1 "this is not a call" "invalid syntax (<unknown>, line 1)" rfl⟩

end Cozmini
